import Mathlib

/-!
Verification of the documentation-generation orchestrator of `ai-doc-gen`
(`src/agents/analyzer.py`, `src/agents/documenter.py`,
`src/agents/tools/file_tool/file_reader.py`, `src/agents/tools/dir_tool/list_files.py`).

The Python code is shallowly embedded: pure fragments become Lean functions,
the filesystem becomes an explicit association-list state, each LLM agent run
becomes an `Except`-valued behaviour supplied as an input, and Python
exceptions become `Except.error` values.  Logging and tracing calls are
observability no-ops and are not modelled, except where a logging statement
itself raises (the attribute access in the analyzer's result-logging loop).
-/

deriving instance DecidableEq for Except

namespace AiDocGen

/-! ### Python string primitives -/

/-- Boolean test that `p` is an initial segment of `s`
(Python's substring match at one position). -/
def leadsWith : List Char → List Char → Bool
  | [], _ => true
  | _ :: _, [] => false
  | p :: ps, c :: cs => p == c && leadsWith ps cs

/-- One pass of Python `str.replace`: scan `s` left to right; where the
pattern `p` matches, emit `r` and skip `p.length` characters, else keep one
character and move on.  `fuel` bounds the recursion; every call site uses
`fuel = s.length`, which suffices because each step consumes at least one
character of `s` whenever `p ≠ []`. -/
def pyReplaceGo (p r : List Char) : Nat → List Char → List Char
  | 0, s => s
  | _ + 1, [] => []
  | fuel + 1, c :: cs =>
    if leadsWith p (c :: cs) then r ++ pyReplaceGo p r fuel ((c :: cs).drop p.length)
    else c :: pyReplaceGo p r fuel cs

/-- Python `s.replace(p, r)`: replace the non-overlapping occurrences of `p`
in `s` by `r`, scanning left to right.  Python's empty pattern inserts `r`
before every character and at the end (`"ab".replace("", ".") = ".a.b."`). -/
def pyReplace (s p r : String) : String :=
  match p.data with
  | [] => ⟨r.data ++ (s.data.map (fun c => c :: r.data)).flatten⟩
  | _ :: _ => ⟨pyReplaceGo p.data r.data s.data.length s.data⟩

/-- `p` occurs as a contiguous substring of `s`. -/
def occursIn (p s : List Char) : Prop := ∃ u v, s = u ++ p ++ v

/-- Python `s.endswith(e)`. -/
def strEndsWith (s e : String) : Bool :=
  leadsWith e.data.reverse s.data.reverse

/-- Split a character list at every occurrence of `sep`
(Python `str.split(sep)` on a single-character separator). -/
def splitOnChar (sep : Char) : List Char → List (List Char)
  | [] => [[]]
  | c :: cs =>
    match splitOnChar sep cs with
    | [] => if c = sep then [[], []] else [[c]]
    | a :: rest => if c = sep then [] :: a :: rest else (c :: a) :: rest

/-- Python `pathlib.Path(root).parts` for ordinary POSIX path strings:
the components between `/` separators, with a leading `"/"` part for an
absolute path and empty components dropped. -/
def pathParts (root : String) : List String :=
  let comps := ((splitOnChar '/' root.data).map (fun l => (⟨l⟩ : String))).filter
    (fun comp => comp ≠ "")
  if root.data.head? = some '/' then "/" :: comps else comps

/-- `str(a / b)` for `pathlib` paths whose left part has no trailing slash. -/
def joinPath (a b : String) : String := a ++ "/" ++ b

/-! ### Shared state and error model -/

/-- The output sink: an association list from artifact path to persisted
content; a later write to the same path shadows an earlier one. -/
abbrev FS := List (String × String)

/-- Persist `content` at `path` (Python `open(path, "w").write(content)`;
the conditional `mkdir` of the parent has no observable effect here). -/
def fsWrite (fs : FS) (path content : String) : FS := (path, content) :: fs

/-- `Path(path).exists()` against the output sink. -/
def fsExists (fs : FS) (path : String) : Bool := (fs.lookup path).isSome

/-- Read back the persisted content at `path`. -/
def fsRead (fs : FS) (path : String) : Option String := fs.lookup path

/-- The error raised by one agent run (`pydantic_ai`'s
`UnexpectedModelBehavior`, or any other exception). -/
inductive AgentError where
  | unexpectedModelBehavior (msg : String)
  | exceptionRaised (msg : String)
deriving DecidableEq

/-! ### AnalyzerAgent (`src/agents/analyzer.py`) -/

/-- `AnalyzerAgentConfig`: the repository path (as its string form, which is
what both the path joins and `_cleanup_output` consume) and the five
independent exclusion toggles. -/
structure AnalyzerAgentConfig where
  repo_path : String
  exclude_code_structure : Bool
  exclude_data_flow : Bool
  exclude_dependencies : Bool
  exclude_request_flow : Bool
  exclude_api_analysis : Bool
deriving DecidableEq

/-- The `all([...])` guard of `AnalyzerAgent.__init__`. -/
def allExcluded (cfg : AnalyzerAgentConfig) : Bool :=
  cfg.exclude_code_structure && cfg.exclude_data_flow && cfg.exclude_dependencies &&
    cfg.exclude_request_flow && cfg.exclude_api_analysis

/-- A constructed `AnalyzerAgent`; it exists only when `AnalyzerAgent.new`
returned normally. -/
structure AnalyzerAgent where
  cfg : AnalyzerAgentConfig

/-- `AnalyzerAgent.__init__`: raises `ValueError` when every analysis option
is excluded, otherwise constructs the agent.  No task is built and no Agent
Runtime object is created here (the `_*_agent` properties of the Python
class are lazy and touched only inside `run`). -/
def AnalyzerAgent.new (cfg : AnalyzerAgentConfig) : Except String AnalyzerAgent :=
  if allExcluded cfg then .error "All analysis options are excluded"
  else .ok ⟨cfg⟩

/-- One task of `AnalyzerAgent.run`: the agent's name and the output
artifact path it is bound to. -/
structure AnalysisTask where
  agent_name : String
  file_path : String
deriving DecidableEq

/-- The five analysis kinds in the order `AnalyzerAgent.run` considers them,
each with its artifact file name under `<repo>/.ai/docs`. -/
def allKinds : List (String × String) :=
  [("Structure Analyzer", "structure_analysis.md"),
   ("Dependency Analyzer", "dependency_analysis.md"),
   ("Data Flow Analyzer", "data_flow_analysis.md"),
   ("Request Flow Analyzer", "request_flow_analysis.md"),
   ("API Analyzer", "api_analysis.md")]

/-- The analysis kinds enabled (not excluded) by a configuration, in the
order `AnalyzerAgent.run` dispatches them. -/
def enabledKinds (cfg : AnalyzerAgentConfig) : List (String × String) :=
  (if !cfg.exclude_code_structure then [("Structure Analyzer", "structure_analysis.md")] else []) ++
  (if !cfg.exclude_dependencies then [("Dependency Analyzer", "dependency_analysis.md")] else []) ++
  (if !cfg.exclude_data_flow then [("Data Flow Analyzer", "data_flow_analysis.md")] else []) ++
  (if !cfg.exclude_request_flow then [("Request Flow Analyzer", "request_flow_analysis.md")] else []) ++
  (if !cfg.exclude_api_analysis then [("API Analyzer", "api_analysis.md")] else [])

/-- `str(repo_path / ".ai" / "docs" / name)`. -/
def analysisDocPath (repo name : String) : String :=
  joinPath (joinPath (joinPath repo ".ai") "docs") name

/-- The task list built by `AnalyzerAgent.run`: one `_run_agent` coroutine
per non-excluded analysis kind, mirroring the five `if not ... : tasks.append`
blocks in source order. -/
def buildTasks (a : AnalyzerAgent) : List AnalysisTask :=
  (if !a.cfg.exclude_code_structure then
    [⟨"Structure Analyzer", analysisDocPath a.cfg.repo_path "structure_analysis.md"⟩] else []) ++
  (if !a.cfg.exclude_dependencies then
    [⟨"Dependency Analyzer", analysisDocPath a.cfg.repo_path "dependency_analysis.md"⟩] else []) ++
  (if !a.cfg.exclude_data_flow then
    [⟨"Data Flow Analyzer", analysisDocPath a.cfg.repo_path "data_flow_analysis.md"⟩] else []) ++
  (if !a.cfg.exclude_request_flow then
    [⟨"Request Flow Analyzer", analysisDocPath a.cfg.repo_path "request_flow_analysis.md"⟩] else []) ++
  (if !a.cfg.exclude_api_analysis then
    [⟨"API Analyzer", analysisDocPath a.cfg.repo_path "api_analysis.md"⟩] else [])

/-- The `analysis_files` list accumulated by `AnalyzerAgent.run` alongside
the task list (same five conditional appends). -/
def analysisFiles (a : AnalyzerAgent) : List String :=
  (if !a.cfg.exclude_code_structure then
    [analysisDocPath a.cfg.repo_path "structure_analysis.md"] else []) ++
  (if !a.cfg.exclude_dependencies then
    [analysisDocPath a.cfg.repo_path "dependency_analysis.md"] else []) ++
  (if !a.cfg.exclude_data_flow then
    [analysisDocPath a.cfg.repo_path "data_flow_analysis.md"] else []) ++
  (if !a.cfg.exclude_request_flow then
    [analysisDocPath a.cfg.repo_path "request_flow_analysis.md"] else []) ++
  (if !a.cfg.exclude_api_analysis then
    [analysisDocPath a.cfg.repo_path "api_analysis.md"] else [])

/-- `AnalyzerAgent._cleanup_output`: replace occurrences of the absolute
repository path in the agent output with the relative marker `"."`. -/
def cleanup_output (repo_path output : String) : String :=
  pyReplace output repo_path "."

/-- `AnalyzerAgent._run_agent`, with the agent-run result supplied as a
behaviour: on structured success it sanitizes the markdown content and
persists it at `file_path`, then returns normally; on failure both `except`
arms log and re-raise, so the error propagates to the caller
(`asyncio.gather`).  Timing, token metrics and tracing are observability
side channels and are not modelled. -/
def AnalyzerAgent.run_agent (repo_path : String) (behavior : Except AgentError String)
    (fs : FS) (file_path : String) : FS × Except AgentError Unit :=
  match behavior with
  | .ok markdown_content =>
    (fsWrite fs file_path (cleanup_output repo_path markdown_content), .ok ())
  | .error e => (fs, .error e)

/-- The verdict recorded by `AnalyzerAgent.validate_succession`:
either the all-files success summary, or the partial-success warning with
the success count, the total, and the missing artifact paths. -/
inductive Verdict where
  | allSucceeded
  | partSuccess (successful total : Nat) (missing : List String)
deriving DecidableEq

/-- `AnalyzerAgent.validate_succession`: collect the expected artifacts that
do not exist; return the success summary when none is missing; raise
`ValueError` when every artifact is missing; otherwise log the
partial-success warning and return normally. -/
def AnalyzerAgent.validate_succession (exists_ : String → Bool)
    (analysis_files : List String) : Except String Verdict :=
  let missing_files := analysis_files.filter (fun file => !exists_ file)
  if missing_files.isEmpty then .ok .allSucceeded
  else if missing_files.length = analysis_files.length then
    .error "Complete analysis failure: no analysis files were generated"
  else
    .ok (.partSuccess (analysis_files.length - missing_files.length)
      analysis_files.length missing_files)

/-- A batch-level failure of `AnalyzerAgent.run`: the `AttributeError`
raised by the result-logging loop (see `AnalyzerAgent.runM`), or the
`ValueError` raised by `validate_succession`. -/
inductive RunError where
  | attributeError
  | valueError (msg : String)
deriving DecidableEq

/-- `AnalyzerAgent.run`, with one behaviour per built task (in dispatch
order).  `asyncio.gather(*tasks, return_exceptions=True)` lets every task
settle and captures each task's exception as a value, so the dispatch step
is a fold that runs every `_run_agent` and records its outcome; a failed
task leaves the sink untouched while its siblings still write.  The
result-logging loop then evaluates `tasks[i].agent.name`, but `tasks[i]` is
a coroutine object with no attribute `agent`, so the loop raises
`AttributeError` on its first iteration whenever at least one task was
dispatched; only with zero dispatched tasks does control reach
`validate_succession`. -/
def AnalyzerAgent.runM (a : AnalyzerAgent) (behaviors : List (Except AgentError String))
    (fs0 : FS) : FS × Except RunError Verdict :=
  let tasks := buildTasks a
  let gathered := (tasks.zip behaviors).foldl
    (fun acc tb =>
      let r := AnalyzerAgent.run_agent a.cfg.repo_path tb.2 acc.1 tb.1.file_path
      (r.1, acc.2 ++ [r.2]))
    (fs0, ([] : List (Except AgentError Unit)))
  if gathered.2.isEmpty then
    match AnalyzerAgent.validate_succession (fsExists gathered.1) (analysisFiles a) with
    | .ok v => (gathered.1, .ok v)
    | .error msg => (gathered.1, .error (.valueError msg))
  else (gathered.1, .error .attributeError)

/-! ### DocumenterAgent (`src/agents/documenter.py`) -/

/-- `DocumenterAgentConfig`: the repository path.  The nested `ReadmeConfig`
section toggles only shape the rendered prompt text (an external
collaborator) and never reach persistence or succession checking, so they
are not modelled. -/
structure DocumenterAgentConfig where
  repo_path : String
deriving DecidableEq

/-- `DocumenterAgent._run_agent`: on structured success it persists the raw
`markdown_content` at `file_path` (no sanitization); its single
`except Exception` arm logs and swallows every error, so the function
always returns normally and the codomain needs no error channel. -/
def DocumenterAgent.run_agent (behavior : Except AgentError String)
    (fs : FS) (file_path : String) : FS :=
  match behavior with
  | .ok markdown_content => fsWrite fs file_path markdown_content
  | .error _ => fs

/-- `DocumenterAgent.run`: renders the prompt (external), runs the single
agent through `_run_agent` against `repo_path / "README.md"`, and returns;
it never consults `validate_succession`. -/
def DocumenterAgent.runM (cfg : DocumenterAgentConfig)
    (behavior : Except AgentError String) (fs : FS) : FS :=
  DocumenterAgent.run_agent behavior fs (joinPath cfg.repo_path "README.md")

/-- `DocumenterAgent.validate_succession`: raises `ValueError` when the
README artifact does not exist.  No caller in the repository invokes it. -/
def DocumenterAgent.validate_succession (cfg : DocumenterAgentConfig)
    (fs : FS) : Except String Unit :=
  if fsExists fs (joinPath cfg.repo_path "README.md") then .ok ()
  else .error "README file does not exist"

/-! ### FileReadTool (`src/agents/tools/file_tool/file_reader.py`) -/

/-- What the filesystem holds at one path, from the reader's point of view:
nothing, a file it may not open, a file whose read raises some other
`OSError`, or a readable file as the line list produced by `readlines()`
(each line keeps its trailing newline). -/
inductive FileState where
  | absent
  | permissionDenied
  | ioError (msg : String)
  | content (lines : List String)
deriving DecidableEq

/-- The reader's view of the filesystem; a path not in the list is absent
(`os.path.exists` is false). -/
def lookupFile (files : List (String × FileState)) (path : String) : FileState :=
  (files.lookup path).getD .absent

/-- The recoverable signal of the tool protocol: `pydantic_ai.ModelRetry`,
which asks the Agent Runtime to retry with adjusted arguments instead of
aborting the task. -/
inductive ToolSignal where
  | modelRetry (msg : String)
deriving DecidableEq

/-- The line window selected by `FileReadTool._run`: drop the first
`line_number` lines only when `line_number > 0`, then keep the first
`line_count` lines only when `line_count > 0`. -/
def fileWindow (lines : List String) (line_number line_count : Int) : List String :=
  let l1 := if line_number > 0 then lines.drop line_number.toNat else lines
  if line_count > 0 then l1.take line_count.toNat else l1

/-- The header of the returned text:
`f"File Line:{line_number} to {line_number + line_count} from: {total_lines}\n--- start---\n"`. -/
def fileReadHeader (line_number line_count : Int) (total_lines : Nat) : String :=
  "File Line:" ++ toString line_number ++ " to " ++ toString (line_number + line_count) ++
    " from: " ++ toString total_lines ++ "\n--- start---\n"

/-- The full string returned by `FileReadTool._run` on a readable file:
header, the joined window (`"".join(lines)`), and the end marker. -/
def fileReadOutput (lines : List String) (line_number line_count : Int) : String :=
  fileReadHeader line_number line_count lines.length ++
    (String.join (fileWindow lines line_number line_count) ++ "\n--- end ---\n")

/-- `FileReadTool._run`: a missing file raises `ModelRetry("File not found")`
before the `try` block; `PermissionError` and any other exception inside it
are re-signalled as `ModelRetry`; a readable file yields the text window
with the total line count. -/
def FileReadTool.run (files : List (String × FileState)) (file_path : String)
    (line_number line_count : Int) : Except ToolSignal String :=
  match lookupFile files file_path with
  | .absent => .error (.modelRetry "File not found")
  | .permissionDenied => .error (.modelRetry "Permission denied when trying to read file")
  | .ioError msg => .error (.modelRetry ("Failed to read file " ++ file_path ++ ". " ++ msg))
  | .content lines => .ok (fileReadOutput lines line_number line_count)

/-! ### ListFilesTool (`src/agents/tools/dir_tool/list_files.py`) -/

/-- A directory tree: the files directly inside, and the named
subdirectories, in `os.walk` traversal order. -/
inductive DirTree where
  | node (files : List String) (subdirs : List (String × DirTree))

/-- The default `ignored_dirs` list of `ListFilesTool`. -/
def DEFAULT_IGNORED_DIRS : List String :=
  [".git", ".svn", ".hg",
   ".venv", ".old-venv", "venv", "env", ".idea", ".vscode", ".eclipse",
   "__pycache__", "node_modules", "target", "build", "dist", "out",
   ".next", ".nuxt", ".output",
   ".tox", ".nox", ".pytest_cache", ".mypy_cache", ".pyre", ".pytype",
   "site-packages", ".eggs", "wheels",
   "vendor", ".mod", "go.work.sum",
   ".gradle", ".m2", ".metadata", ".recommenders", "bin", "gen",
   ".npm", ".yarn", "yarn-error.log", ".pnpm-store", ".turbo", ".rush",
   "lerna-debug.log*", ".eslintcache", ".parcel-cache", ".cache", "coverage",
   ".phpunit.result.cache", "composer.phar", ".phplint-cache",
   "bower_components", ".bundle", "Pods", "DerivedData", ".cargo",
   ".stack-work", "elm-stuff", "_site",
   "k8s", ".terraform", ".docker",
   "docs/_build", "site",
   "logs", ".logs", "log",
   "assets", "public", "static",
   ".coverage", "htmlcov", ".nyc_output", "jest-coverage",
   ".DS_Store", "Thumbs.db"]

/-- The default `ignored_extensions` list of `ListFilesTool`. -/
def DEFAULT_IGNORED_EXTENSIONS : List String :=
  [".pyc", ".pyo", ".pyd", ".class", ".o", ".so", ".dll", ".dylib", ".exe",
   ".bin", ".a", ".lib",
   ".beam", ".hi", ".cmi", ".cmo", ".cmx", ".rlib", ".pdb",
   ".jar", ".war", ".ear", ".aar",
   ".mdb",
   ".zip", ".tar", ".tar.gz", ".tgz", ".tar.bz2", ".tbz2", ".tar.xz",
   ".rar", ".7z", ".gz", ".bz2", ".xz",
   ".whl", ".egg", ".phar", ".deb", ".rpm", ".msi", ".dmg", ".pkg", ".gem",
   ".nupkg",
   ".log", ".tmp", ".temp", ".swp", ".swo", "~", ".bak", ".orig", ".cache",
   ".pid",
   ".dat", ".db", ".sqlite", ".sqlite3", ".accdb",
   ".env", ".env.local", ".env.production", ".env.development",
   ".iml", ".ipr", ".iws", ".sublime-project", ".sublime-workspace", ".vscode",
   ".DS_Store", "Thumbs.db", "desktop.ini", ".localized",
   ".jpg", ".jpeg", ".png", ".gif", ".bmp", ".svg", ".ico", ".mp3", ".mp4",
   ".avi", ".mov", ".pdf", ".doc", ".docx", ".xls", ".xlsx", ".ppt", ".pptx",
   ".ttf", ".otf", ".woff", ".woff2", ".eot"]

/-- The configured exclusion lists of one `ListFilesTool` instance. -/
structure ListFilesCfg where
  ignored_dirs : List String
  ignored_extensions : List String

/-- The unhandled Python exception `ListFilesTool._run` can raise:
`directory[-1]` on the empty string is an `IndexError`. -/
inductive PyExc where
  | indexError
deriving DecidableEq

mutual
/-- `os.walk(path)` over a present directory tree, top-down: the root with
its files, then each subdirectory recursively.  A nonexistent or
inaccessible directory yields nothing (`os.walk` swallows errors by
default), handled at the call site. -/
def osWalk (path : String) : DirTree → List (String × List String)
  | .node files subdirs => (path, files) :: osWalkList path subdirs
/-- Walk each named subdirectory in order. -/
def osWalkList (path : String) : List (String × DirTree) → List (String × List String)
  | [] => []
  | (name, t) :: rest => osWalk (path ++ "/" ++ name) t ++ osWalkList path rest
end

/-- The `(root, files)` pairs `os.walk(d)` produces against a filesystem
modelled as an association list from directory path to tree. -/
def walkedOf (fsd : List (String × DirTree)) (d : String) : List (String × List String) :=
  match fsd.lookup d with
  | some t => osWalk d t
  | none => []

/-- The skip test of the walk loop:
`self.ignored_dirs and any(ignored_dir in path_parts for ignored_dir in self.ignored_dirs)`. -/
def ignoredDirHit (cfg : ListFilesCfg) (root : String) : Bool :=
  !cfg.ignored_dirs.isEmpty &&
    cfg.ignored_dirs.any (fun ignored_dir => (pathParts root).contains ignored_dir)

/-- The skip test of the filename loop:
`self.ignored_extensions and any(filename.endswith(ext) for ext in self.ignored_extensions)`. -/
def ignoredExtHit (cfg : ListFilesCfg) (filename : String) : Bool :=
  !cfg.ignored_extensions.isEmpty &&
    cfg.ignored_extensions.any (fun ext => strEndsWith filename ext)

/-- `os.path.relpath(root, directory)` restricted to the inputs the walk
produces: `root` is `directory` itself or `directory ++ "/" ++ rel`. -/
def relpathFrom (directory root : String) : String :=
  if root = directory then "." else ⟨root.data.drop (directory.data.length + 1)⟩

/-- The relative-directory key used for grouping: `"."` becomes `"/"`, any
other relative path is prefixed with `"/"`. -/
def relDirName (directory root : String) : String :=
  let rel := relpathFrom directory root
  if rel = "." then "/" else "/" ++ rel

/-- `dir_files[rel_dir].append(filename)` on a `defaultdict(list)` kept as
an association list in insertion order. -/
def addFile (groups : List (String × List String)) (key fname : String) :
    List (String × List String) :=
  match groups with
  | [] => [(key, [fname])]
  | (k, fl) :: rest =>
    if k = key then (k, fl ++ [fname]) :: rest
    else (k, fl) :: addFile rest key fname

/-- The body of the filename loop of `ListFilesTool._run`: skip a file with
an ignored extension, append any other under the current relative-directory
key. -/
def addMatching (cfg : ListFilesCfg) (rel_dir : String)
    (gs : List (String × List String)) (filename : String) :
    List (String × List String) :=
  if ignoredExtHit cfg filename then gs else addFile gs rel_dir filename

/-- The body of the walk loop of `ListFilesTool._run`: skip a walk entry
under an ignored directory whole, otherwise fold its files in. -/
def walkStep (cfg : ListFilesCfg) (directory : String)
    (groups : List (String × List String)) (rootFiles : String × List String) :
    List (String × List String) :=
  if ignoredDirHit cfg rootFiles.1 then groups
  else rootFiles.2.foldl (addMatching cfg (relDirName directory rootFiles.1)) groups

/-- The grouping loop of `ListFilesTool._run` over the walk entries. -/
def collectGroups (cfg : ListFilesCfg) (directory : String)
    (walked : List (String × List String)) : List (String × List String) :=
  walked.foldl (walkStep cfg directory) []

/-- Python's `repr` of a list of ordinary file-name strings, as interpolated
by `f"\n{dir_path}: {files}\n"`; `Char.ofNat 39` is the single-quote
character. -/
def pyListRepr (files : List String) : String :=
  let q := String.singleton (Char.ofNat 39)
  "[" ++ String.intercalate ", " (files.map (fun f => q ++ f ++ q)) ++ "]"

/-- The rendered entries: directory keys sorted, and each directory's file
list sorted (`for dir_path in sorted(dir_files.keys()): files = sorted(...)`). -/
def renderEntries (groups : List (String × List String)) :
    List (String × List String) :=
  ((groups.map Prod.fst).mergeSort (fun a b => decide (a ≤ b))).map
    (fun k => (k, ((groups.lookup k).getD []).mergeSort (fun a b => decide (a ≤ b))))

/-- The output string for a non-empty grouping: the header line followed by
one `\n{dir_path}: {files}\n` block per sorted directory. -/
def renderGroups (directory : String) (groups : List (String × List String)) : String :=
  (renderEntries groups).foldl
    (fun acc e => acc ++ "\n" ++ e.1 ++ ": " ++ pyListRepr e.2 ++ "\n")
    ("Files grouped by directory (relative to " ++ directory ++ "):\n")

/-- Strip one trailing slash: `if directory[-1] == "/": directory = directory[:-1]`. -/
def stripDir (directory : String) : String :=
  match directory.data.getLast? with
  | some last => if last = '/' then ⟨directory.data.dropLast⟩ else directory
  | none => directory

/-- `ListFilesTool._run`: the very first use of the argument is
`directory[-1]`, an unhandled `IndexError` on the empty string; otherwise
it strips one trailing slash, walks the directory (an inaccessible one
yields no entries), groups the surviving files by relative directory, and
renders either the grouped listing or the no-files message. -/
def ListFilesTool.run (fsd : List (String × DirTree)) (cfg : ListFilesCfg)
    (directory : String) : Except PyExc String :=
  match directory.data.getLast? with
  | none => .error .indexError
  | some _ =>
    let d := stripDir directory
    let groups := collectGroups cfg d (walkedOf fsd d)
    if groups.isEmpty then .ok ("No files found in " ++ d ++ ".")
    else .ok (renderGroups d groups)

end AiDocGen

namespace AiDocGen

/-! ### Helper lemmas about `pyReplace` -/

theorem leadsWith_iff {p s : List Char} :
    leadsWith p s = true ↔ ∃ t, s = p ++ t := by
  induction p generalizing s with
  | nil => simp [leadsWith]
  | cons a ps ih =>
    cases s with
    | nil => simp [leadsWith]
    | cons c cs =>
      simp only [leadsWith, Bool.and_eq_true, beq_iff_eq, ih, List.cons_append,
        List.cons.injEq]
      constructor
      · rintro ⟨rfl, t, rfl⟩; exact ⟨t, rfl, rfl⟩
      · rintro ⟨t, rfl, rfl⟩; exact ⟨rfl, t, rfl⟩

theorem occursIn_cons {p : List Char} {c : Char} {t : List Char}
    (h : occursIn p (c :: t)) :
    leadsWith p (c :: t) = true ∨ occursIn p t := by
  obtain ⟨u, v, hv⟩ := h
  cases u with
  | nil => exact Or.inl (leadsWith_iff.mpr ⟨v, by simpa using hv⟩)
  | cons b u' =>
    right
    rw [List.cons_append, List.cons_append] at hv
    exact ⟨u', v, (List.cons.injEq _ _ _ _).mp hv |>.2⟩

theorem occursIn_of_leadsWith {p s : List Char} (h : leadsWith p s = true) :
    occursIn p s := by
  obtain ⟨t, rfl⟩ := leadsWith_iff.mp h
  exact ⟨[], t, by simp⟩

/-- A replacement result begins with a dot-free nonempty `q` only if the
input did: the inserted replacement text is exactly `"."`, so a dot-free
pattern cannot borrow characters from it. -/
theorem leadsWith_pyReplaceGo {p : List Char} :
    ∀ (fuel : Nat) (s q : List Char), q ≠ [] → ('.' : Char) ∉ q →
      s.length ≤ fuel →
      leadsWith q (pyReplaceGo p ['.'] fuel s) = true → leadsWith q s = true := by
  intro fuel
  induction fuel with
  | zero => intro s q _ _ _ h; simpa [pyReplaceGo] using h
  | succ fuel ih =>
    intro s q hq hdot hlen h
    cases s with
    | nil =>
      cases q with
      | nil => exact absurd rfl hq
      | cons a t => simp [pyReplaceGo, leadsWith] at h
    | cons c cs =>
      by_cases hm : leadsWith p (c :: cs) = true
      · rw [pyReplaceGo, if_pos hm] at h
        cases q with
        | nil => exact absurd rfl hq
        | cons a t =>
          rw [List.singleton_append, leadsWith, Bool.and_eq_true, beq_iff_eq] at h
          exact absurd (h.1 ▸ List.mem_cons_self a t) hdot
      · rw [pyReplaceGo, if_neg hm] at h
        cases q with
        | nil => exact absurd rfl hq
        | cons a t =>
          rw [leadsWith, Bool.and_eq_true] at h
          by_cases ht : t = []
          · subst ht
            rw [leadsWith, Bool.and_eq_true]
            exact ⟨h.1, rfl⟩
          · have := ih cs t ht (fun hm' => hdot (List.mem_cons_of_mem a hm'))
              (Nat.le_of_succ_le_succ hlen) h.2
            rw [leadsWith, Bool.and_eq_true]
            exact ⟨h.1, this⟩

/-- After one full replacement pass, no occurrence of a nonempty dot-free
pattern remains. -/
theorem not_occursIn_pyReplaceGo {p : List Char} (hp : p ≠ [])
    (hdot : ('.' : Char) ∉ p) :
    ∀ (fuel : Nat) (s : List Char), s.length ≤ fuel →
      ¬ occursIn p (pyReplaceGo p ['.'] fuel s) := by
  intro fuel
  induction fuel with
  | zero =>
    intro s hlen h
    have hs : s = [] := List.eq_nil_of_length_eq_zero (Nat.le_zero.mp hlen)
    subst hs
    obtain ⟨u, v, huv⟩ := h
    rcases List.append_eq_nil.mp ((List.append_eq_nil.mp huv.symm).1) with ⟨-, h2⟩
    exact hp h2
  | succ fuel ih =>
    intro s hlen h
    cases s with
    | nil =>
      obtain ⟨u, v, huv⟩ := h
      rw [pyReplaceGo] at huv
      rcases List.append_eq_nil.mp ((List.append_eq_nil.mp huv.symm).1) with ⟨-, h2⟩
      exact hp h2
    | cons c cs =>
      by_cases hm : leadsWith p (c :: cs) = true
      · rw [pyReplaceGo, if_pos hm, List.singleton_append] at h
        rcases occursIn_cons h with hlead | hocc
        · cases p with
          | nil => exact hp rfl
          | cons a t =>
            rw [leadsWith, Bool.and_eq_true, beq_iff_eq] at hlead
            exact hdot (hlead.1 ▸ List.mem_cons_self a t)
        · have hdrop : ((c :: cs).drop p.length).length ≤ fuel := by
            have h1 : 1 ≤ p.length := by
              cases p with
              | nil => exact absurd rfl hp
              | cons _ _ => simp
            have := List.length_drop p.length (c :: cs)
            omega
          exact ih ((c :: cs).drop p.length) hdrop hocc
      · rw [pyReplaceGo, if_neg hm] at h
        rcases occursIn_cons h with hlead | hocc
        · cases p with
          | nil => exact hp rfl
          | cons a t =>
            rw [leadsWith, Bool.and_eq_true] at hlead
            by_cases ht : t = []
            · subst ht
              apply hm
              rw [leadsWith, Bool.and_eq_true]
              exact ⟨hlead.1, rfl⟩
            · have := leadsWith_pyReplaceGo fuel cs t ht
                (fun hm' => hdot (List.mem_cons_of_mem a hm'))
                (Nat.le_of_succ_le_succ hlen) hlead.2
              apply hm
              rw [leadsWith, Bool.and_eq_true]
              exact ⟨hlead.1, this⟩
        · exact ih cs (Nat.le_of_succ_le_succ hlen) hocc

/-- On a string with no occurrence of the pattern, a replacement pass is the
identity. -/
theorem pyReplaceGo_eq_self {p r : List Char} :
    ∀ (fuel : Nat) (t : List Char), ¬ occursIn p t → t.length ≤ fuel →
      pyReplaceGo p r fuel t = t := by
  intro fuel
  induction fuel with
  | zero => intro t _ _; rfl
  | succ fuel ih =>
    intro t hocc hlen
    cases t with
    | nil => rfl
    | cons c cs =>
      have hm : leadsWith p (c :: cs) ≠ true := fun hm =>
        hocc (occursIn_of_leadsWith hm)
      rw [pyReplaceGo, if_neg hm]
      have : ¬ occursIn p cs := by
        rintro ⟨u, v, rfl⟩
        exact hocc ⟨c :: u, v, rfl⟩
      rw [ih cs this (Nat.le_of_succ_le_succ hlen)]

theorem cleanup_output_eq (repo out : String) (h : repo.data ≠ []) :
    cleanup_output repo out =
      ⟨pyReplaceGo repo.data ['.'] out.data.length out.data⟩ := by
  rw [cleanup_output, pyReplace]
  cases hr : repo.data with
  | nil => exact absurd hr h
  | cons a t => rfl

end AiDocGen

/-- Claim C6 (counterexample): sanitization by `AnalyzerAgent._cleanup_output`
is not idempotent for every output string and repository path.  With
`repo_path = "/a/b.c"` and output `"/a/b/a/b.cc"`, one application yields
`"/a/b.c"` (the replacement glues the surrounding text into a fresh
occurrence of the path), and a second application yields `"."`. -/
theorem cleanup_output_not_idempotent :
    AiDocGen.cleanup_output "/a/b.c"
        (AiDocGen.cleanup_output "/a/b.c" "/a/b/a/b.cc") ≠
      AiDocGen.cleanup_output "/a/b.c" "/a/b/a/b.cc" := by decide

/-- Claim C6 (amended): applying `AnalyzerAgent._cleanup_output` twice yields
the same result as applying it once, provided the repository path string is
nonempty and does not contain the character `.` (the replacement marker): a
path containing a dot can be recreated by the replacement itself, and on the
empty path Python's `str.replace` inserts markers everywhere. -/
theorem cleanup_output_idempotent (repo out : String) (h0 : repo ≠ "")
    (hdot : ('.' : Char) ∉ repo.data) :
    AiDocGen.cleanup_output repo (AiDocGen.cleanup_output repo out) =
      AiDocGen.cleanup_output repo out := by
  have hne : repo.data ≠ [] := by
    intro hd
    exact h0 (String.ext (hd.trans rfl))
  rw [AiDocGen.cleanup_output_eq repo out hne]
  set t := AiDocGen.pyReplaceGo repo.data ['.'] out.data.length out.data with ht
  have hocc : ¬ AiDocGen.occursIn repo.data t :=
    AiDocGen.not_occursIn_pyReplaceGo hne hdot out.data.length out.data le_rfl
  rw [AiDocGen.cleanup_output_eq repo ⟨t⟩ hne]
  exact congrArg String.mk (AiDocGen.pyReplaceGo_eq_self _ _ hocc le_rfl)

/-- Witness for `cleanup_output_idempotent` at the concrete repository path
`"/repo"` and output `"see /repo/x"`. -/
theorem cleanup_output_idempotent_witness :
    AiDocGen.cleanup_output "/repo" (AiDocGen.cleanup_output "/repo" "see /repo/x") =
      AiDocGen.cleanup_output "/repo" "see /repo/x" :=
  cleanup_output_idempotent "/repo" "see /repo/x" (by decide) (by decide)

open AiDocGen in
/-- Claim C1: for every non-empty list of expected artifact paths,
`AnalyzerAgent.validate_succession` classifies the run solely by which
expected artifacts exist on the output sink: all existing returns the
success verdict normally, none existing raises the complete-failure
`ValueError`, and a strict mixture returns the partial-success verdict
normally. -/
theorem validate_succession_trichotomy (exists_ : String → Bool)
    (files : List String) (hne : files ≠ []) :
    ((∀ f ∈ files, exists_ f = true) →
      AnalyzerAgent.validate_succession exists_ files = .ok .allSucceeded) ∧
    ((∀ f ∈ files, exists_ f = false) →
      AnalyzerAgent.validate_succession exists_ files =
        .error "Complete analysis failure: no analysis files were generated") ∧
    ((∃ f ∈ files, exists_ f = true) → (∃ f ∈ files, exists_ f = false) →
      ∃ s t m, AnalyzerAgent.validate_succession exists_ files =
        .ok (.partSuccess s t m)) := by
  refine ⟨?_, ?_, ?_⟩
  · intro hall
    have h1 : files.filter (fun file => !exists_ file) = [] :=
      List.filter_eq_nil_iff.mpr (fun f hf => by simp [hall f hf])
    simp [AnalyzerAgent.validate_succession, h1]
  · intro hnone
    have h1 : files.filter (fun file => !exists_ file) = files :=
      List.filter_eq_self.mpr (fun f hf => by simp [hnone f hf])
    simp [AnalyzerAgent.validate_succession, h1, hne]
  · rintro ⟨fe, hfe, hfee⟩ ⟨fm, hfm, hfmm⟩
    have hmem : fm ∈ files.filter (fun file => !exists_ file) :=
      List.mem_filter.mpr ⟨hfm, by simp [hfmm]⟩
    have hne2 : files.filter (fun file => !exists_ file) ≠ [] := by
      intro h
      rw [h] at hmem
      exact absurd hmem (List.not_mem_nil fm)
    have hlen : (files.filter (fun file => !exists_ file)).length ≠ files.length := by
      intro hl
      have heq := (List.filter_sublist files).eq_of_length hl
      have := List.filter_eq_self.mp heq fe hfe
      simp [hfee] at this
    exact ⟨files.length - (files.filter (fun file => !exists_ file)).length,
      files.length, files.filter (fun file => !exists_ file),
      by simp [AnalyzerAgent.validate_succession, hne2, hlen]⟩

open AiDocGen in
/-- Witness for `validate_succession_trichotomy`: two expected artifacts of
which exactly one exists classifies as partial success without raising. -/
theorem validate_succession_trichotomy_witness :
    ∃ s t m, AnalyzerAgent.validate_succession (fun f => f == "kept.md")
        ["kept.md", "lost.md"] = .ok (.partSuccess s t m) :=
  (validate_succession_trichotomy (fun f => f == "kept.md") ["kept.md", "lost.md"]
      (by decide)).2.2
    ⟨"kept.md", by decide, by decide⟩ ⟨"lost.md", by decide, by decide⟩

open AiDocGen in
/-- Claim C3: `AnalyzerAgent` construction fails with the configuration
error exactly when all five analysis toggles are set to exclude, and
succeeds (yielding the agent whose `run` later builds the tasks) whenever
at least one kind is enabled.  Construction touches no task and no Agent
Runtime: `buildTasks` consumes the constructed agent, which exists only
through the `.ok` branch of `AnalyzerAgent.new`. -/
theorem analyzer_new_config_guard (cfg : AnalyzerAgentConfig) :
    (AnalyzerAgent.new cfg = .error "All analysis options are excluded" ↔
      allExcluded cfg = true) ∧
    (allExcluded cfg = false ↔ ∃ a, AnalyzerAgent.new cfg = .ok a ∧ a.cfg = cfg) := by
  by_cases h : allExcluded cfg = true
  · simp [AnalyzerAgent.new, h]
  · simp only [Bool.not_eq_true] at h
    refine ⟨by simp [AnalyzerAgent.new, h], ?_⟩
    simp only [h, true_iff]
    exact ⟨⟨cfg⟩, by simp [AnalyzerAgent.new, h], rfl⟩

namespace AiDocGen

/-! ### Helper lemmas about task construction -/

theorem string_append_left_inj (p : String) :
    Function.Injective (fun s => p ++ s) := by
  intro a b h
  have hd := congrArg String.data h
  simp only [String.data_append] at hd
  exact String.ext (List.append_cancel_left hd)

theorem analysisDocPath_inj (repo : String) :
    Function.Injective (analysisDocPath repo) := by
  intro a b h
  have h2 : (joinPath (joinPath repo ".ai") "docs" ++ "/") ++ a =
      (joinPath (joinPath repo ".ai") "docs" ++ "/") ++ b := h
  exact @string_append_left_inj (joinPath (joinPath repo ".ai") "docs" ++ "/") a b h2

theorem buildTasks_eq_map (cfg : AnalyzerAgentConfig) :
    buildTasks ⟨cfg⟩ = (enabledKinds cfg).map
      (fun k => ⟨k.1, analysisDocPath cfg.repo_path k.2⟩) := by
  rcases cfg with ⟨repo, e1, e2, e3, e4, e5⟩
  cases e1 <;> cases e2 <;> cases e3 <;> cases e4 <;> cases e5 <;> rfl

theorem analysisFiles_eq_map (cfg : AnalyzerAgentConfig) :
    analysisFiles ⟨cfg⟩ = (buildTasks ⟨cfg⟩).map AnalysisTask.file_path := by
  rcases cfg with ⟨repo, e1, e2, e3, e4, e5⟩
  cases e1 <;> cases e2 <;> cases e3 <;> cases e4 <;> cases e5 <;> rfl

theorem enabledKinds_snd_nodup (cfg : AnalyzerAgentConfig) :
    ((enabledKinds cfg).map Prod.snd).Nodup := by
  rcases cfg with ⟨repo, e1, e2, e3, e4, e5⟩
  cases e1 <;> cases e2 <;> cases e3 <;> cases e4 <;> cases e5 <;>
    simp [enabledKinds]

theorem enabledKinds_ne_nil (cfg : AnalyzerAgentConfig)
    (h : allExcluded cfg = false) : enabledKinds cfg ≠ [] := by
  rcases cfg with ⟨repo, e1, e2, e3, e4, e5⟩
  cases e1 <;> cases e2 <;> cases e3 <;> cases e4 <;> cases e5 <;>
    simp_all [allExcluded, enabledKinds]

end AiDocGen

open AiDocGen in
/-- Claim C4: with at least one analysis kind enabled, `AnalyzerAgent.run`
builds exactly one task per enabled kind (in dispatch order) and none for
excluded kinds, and the built tasks carry pairwise-distinct artifact paths
`repo_path/.ai/docs/<kind>.md` keyed by the analysis kind. -/
theorem buildTasks_enabled_kinds (cfg : AnalyzerAgentConfig)
    (h : allExcluded cfg = false) :
    buildTasks ⟨cfg⟩ = (enabledKinds cfg).map
      (fun k => ⟨k.1, analysisDocPath cfg.repo_path k.2⟩) ∧
    (buildTasks ⟨cfg⟩).length = (enabledKinds cfg).length ∧
    buildTasks ⟨cfg⟩ ≠ [] ∧
    ((buildTasks ⟨cfg⟩).map AnalysisTask.file_path).Nodup ∧
    ∀ t ∈ buildTasks ⟨cfg⟩, ∃ k ∈ enabledKinds cfg,
      t.agent_name = k.1 ∧ t.file_path = analysisDocPath cfg.repo_path k.2 := by
  refine ⟨buildTasks_eq_map cfg, ?_, ?_, ?_, ?_⟩
  · rw [buildTasks_eq_map cfg, List.length_map]
  · rw [buildTasks_eq_map cfg]
    simp [List.map_eq_nil_iff, enabledKinds_ne_nil cfg h]
  · rw [buildTasks_eq_map cfg]
    have : ((enabledKinds cfg).map
        (fun k => (⟨k.1, analysisDocPath cfg.repo_path k.2⟩ : AnalysisTask))).map
          AnalysisTask.file_path =
        ((enabledKinds cfg).map Prod.snd).map (analysisDocPath cfg.repo_path) := by
      simp [List.map_map, Function.comp]
    rw [this]
    exact (enabledKinds_snd_nodup cfg).map (analysisDocPath_inj cfg.repo_path)
  · rw [buildTasks_eq_map cfg]
    intro t ht
    obtain ⟨k, hk, rfl⟩ := List.mem_map.mp ht
    exact ⟨k, hk, rfl, rfl⟩

open AiDocGen in
/-- Witness for `buildTasks_enabled_kinds`: with only the code-structure
analysis enabled, exactly one task is built, bound to
`/repo/.ai/docs/structure_analysis.md`. -/
theorem buildTasks_enabled_kinds_witness :
    allExcluded ⟨"/repo", false, true, true, true, true⟩ = false ∧
    (buildTasks ⟨⟨"/repo", false, true, true, true, true⟩⟩ =
        (enabledKinds ⟨"/repo", false, true, true, true, true⟩).map
          (fun k => ⟨k.1, analysisDocPath "/repo" k.2⟩) ∧
      (buildTasks ⟨⟨"/repo", false, true, true, true, true⟩⟩).length =
        (enabledKinds ⟨"/repo", false, true, true, true, true⟩).length ∧
      buildTasks ⟨⟨"/repo", false, true, true, true, true⟩⟩ ≠ [] ∧
      ((buildTasks ⟨⟨"/repo", false, true, true, true, true⟩⟩).map
        AnalysisTask.file_path).Nodup ∧
      ∀ t ∈ buildTasks ⟨⟨"/repo", false, true, true, true, true⟩⟩,
        ∃ k ∈ enabledKinds ⟨"/repo", false, true, true, true, true⟩,
          t.agent_name = k.1 ∧ t.file_path = analysisDocPath "/repo" k.2) :=
  ⟨by decide, buildTasks_enabled_kinds ⟨"/repo", false, true, true, true, true⟩ (by decide)⟩

open AiDocGen in
/-- Claim C2 (code evaluated at the failing input): with the structure and
dependency analyses enabled, the first task failing and the second
succeeding, every task settles — the dependency artifact is persisted with
sanitized content even though its sibling failed, exactly as
`asyncio.gather(..., return_exceptions=True)` promises — but
`AnalyzerAgent.run` then raises `AttributeError` in its result-logging loop
(`tasks[i].agent.name` on a coroutine object), so no task outcome is
recorded and `validate_succession` is never reached. -/
theorem analyzer_run_logging_attribute_error :
    AnalyzerAgent.runM ⟨⟨"/repo", false, true, false, true, true⟩⟩
        [.error (.exceptionRaised "boom"), .ok "hello /repo world"] [] =
      ([("/repo/.ai/docs/dependency_analysis.md", "hello . world")],
        .error .attributeError) := by decide

open AiDocGen in
/-- Claim C5 (counterexample): the content persisted by the single-artifact
documenter wrapper is not the sanitized output.  `DocumenterAgent._run_agent`
writes the raw `markdown_content`: with repository path `"/repo"` and output
`"see /repo/x"` the persisted README content keeps the absolute path, while
sanitization would have replaced it. -/
theorem documenter_output_not_sanitized :
    DocumenterAgent.runM ⟨"/repo"⟩ (.ok "see /repo/x") [] =
      [("/repo/README.md", "see /repo/x")] ∧
    cleanup_output "/repo" "see /repo/x" ≠ "see /repo/x" :=
  ⟨rfl, by decide⟩

open AiDocGen in
/-- Claim C5 (amended): on a successful structured completion the analyzer
wrapper (`AnalyzerAgent._run_agent`) persists exactly the sanitized output
at the task's artifact path; the documenter wrapper
(`DocumenterAgent._run_agent`) persists the raw markdown content without
sanitization. -/
theorem run_agent_persists_sanitized (repo md file_path : String) (fs : FS) :
    AnalyzerAgent.run_agent repo (.ok md) fs file_path =
      (fsWrite fs file_path (cleanup_output repo md), .ok ()) ∧
    fsRead (AnalyzerAgent.run_agent repo (.ok md) fs file_path).1 file_path =
      some (cleanup_output repo md) ∧
    DocumenterAgent.run_agent (.ok md) fs file_path = fsWrite fs file_path md ∧
    fsRead (DocumenterAgent.run_agent (.ok md) fs file_path) file_path = some md := by
  refine ⟨rfl, ?_, rfl, ?_⟩ <;>
    simp [AnalyzerAgent.run_agent, DocumenterAgent.run_agent, fsRead, fsWrite,
      List.lookup]

open AiDocGen in
/-- Claim C7 (code evaluated at the failing input): when the single agent
run fails, `DocumenterAgent.run` swallows the error inside `_run_agent` and
returns normally — its embedding is a total function into the sink state —
leaving the README absent; the succession check that would raise on the
missing README exists (`DocumenterAgent.validate_succession`, shown raising
on the resulting state) but `run` never invokes it. -/
theorem documenter_run_skips_validation :
    DocumenterAgent.runM ⟨"/repo"⟩ (.error (.exceptionRaised "boom")) [] = [] ∧
    DocumenterAgent.validate_succession ⟨"/repo"⟩
        (DocumenterAgent.runM ⟨"/repo"⟩ (.error (.exceptionRaised "boom")) []) =
      .error "README file does not exist" :=
  ⟨rfl, rfl⟩

open AiDocGen in
/-- Claim C8: for every path argument, `FileReadTool._run` signals the
recoverable `ModelRetry` condition — never any other failure — when the
file does not exist, when permission is denied, or on any other I/O error,
and on a readable file it returns the text window together with the file's
total line count; every run is either a normal return or a `ModelRetry`. -/
theorem file_read_signals_model_retry (files : List (String × FileState))
    (file_path : String) (line_number line_count : Int) :
    (lookupFile files file_path = .absent →
      FileReadTool.run files file_path line_number line_count =
        .error (.modelRetry "File not found")) ∧
    (lookupFile files file_path = .permissionDenied →
      FileReadTool.run files file_path line_number line_count =
        .error (.modelRetry "Permission denied when trying to read file")) ∧
    (∀ msg, lookupFile files file_path = .ioError msg →
      FileReadTool.run files file_path line_number line_count =
        .error (.modelRetry ("Failed to read file " ++ file_path ++ ". " ++ msg))) ∧
    (∀ lines, lookupFile files file_path = .content lines →
      FileReadTool.run files file_path line_number line_count =
        .ok (fileReadOutput lines line_number line_count)) ∧
    ((∃ out, FileReadTool.run files file_path line_number line_count = .ok out) ∨
      (∃ msg, FileReadTool.run files file_path line_number line_count =
        .error (.modelRetry msg))) := by
  refine ⟨?_, ?_, ?_, ?_, ?_⟩
  · intro h; simp [FileReadTool.run, h]
  · intro h; simp [FileReadTool.run, h]
  · intro msg h; simp [FileReadTool.run, h]
  · intro lines h; simp [FileReadTool.run, h]
  · rcases hl : lookupFile files file_path with _ | _ | msg | lines
    · exact Or.inr ⟨"File not found", by simp [FileReadTool.run, hl]⟩
    · exact Or.inr ⟨"Permission denied when trying to read file",
        by simp [FileReadTool.run, hl]⟩
    · exact Or.inr ⟨"Failed to read file " ++ file_path ++ ". " ++ msg,
        by simp [FileReadTool.run, hl]⟩
    · exact Or.inl ⟨fileReadOutput lines line_number line_count,
        by simp [FileReadTool.run, hl]⟩

open AiDocGen in
/-- Witness for `file_read_signals_model_retry`: a two-line readable file
yields the windowed text. -/
theorem file_read_signals_model_retry_witness :
    lookupFile [("f.txt", .content ["a\n", "b"])] "f.txt" = .content ["a\n", "b"] ∧
    FileReadTool.run [("f.txt", .content ["a\n", "b"])] "f.txt" 0 200 =
      .ok (fileReadOutput ["a\n", "b"] 0 200) :=
  ⟨by decide,
    (file_read_signals_model_retry [("f.txt", FileState.content ["a\n", "b"])]
      "f.txt" 0 200).2.2.2.1 ["a\n", "b"] (by decide)⟩

open AiDocGen in
/-- Claim C10: in `FileReadTool._run`, the bounds apply only when strictly
positive — a non-positive `line_number` leaves the window starting at the
first line, a non-positive `line_count` leaves only the (possibly trivial)
initial drop, so the window runs to the end of the file, and with both
non-positive the window is the whole file — while the header always reports
the range `line_number` to `line_number + line_count` and the file's true
total line count, regardless of the file's length. -/
theorem file_window_bounds (lines : List String) (line_number line_count : Int) :
    (line_number ≤ 0 →
      (fileWindow lines line_number line_count).head? = lines.head?) ∧
    (line_count ≤ 0 →
      fileWindow lines line_number line_count =
        lines.drop (if 0 < line_number then line_number.toNat else 0)) ∧
    (line_number ≤ 0 → line_count ≤ 0 →
      fileWindow lines line_number line_count = lines) ∧
    (∃ rest, fileReadOutput lines line_number line_count =
      fileReadHeader line_number line_count lines.length ++ rest) := by
  refine ⟨?_, ?_, ?_, ⟨_, rfl⟩⟩
  · intro hn
    have hn' : ¬ (line_number > 0) := by omega
    by_cases hc : line_count > 0
    · have hc0 : line_count.toNat ≠ 0 := by omega
      obtain ⟨k, hk⟩ := Nat.exists_eq_succ_of_ne_zero hc0
      cases lines with
      | nil => simp [fileWindow, hn', hc]
      | cons a as => simp [fileWindow, hn', hc, hk]
    · simp [fileWindow, hn', hc]
  · intro hc
    have hc' : ¬ (line_count > 0) := by omega
    by_cases hn : line_number > 0
    · simp [fileWindow, hn, hc']
    · simp [fileWindow, hn, hc']
  · intro hn hc
    have hn' : ¬ (line_number > 0) := by omega
    have hc' : ¬ (line_count > 0) := by omega
    simp [fileWindow, hn', hc']

open AiDocGen in
/-- Witness for `file_window_bounds`: with `line_number = -1` and
`line_count = 0` the whole two-line file is returned. -/
theorem file_window_bounds_witness :
    (fileWindow ["a", "b"] (-1) 0).head? = (["a", "b"] : List String).head? ∧
    fileWindow ["a", "b"] (-1) 0 = ["a", "b"] :=
  ⟨(file_window_bounds ["a", "b"] (-1) 0).1 (by decide),
    (file_window_bounds ["a", "b"] (-1) 0).2.2.1 (by decide) (by decide)⟩

namespace AiDocGen

/-! ### Helper lemmas about the grouping loop of `ListFilesTool._run` -/

theorem addFile_forall {P : String → Prop} :
    ∀ (gs : List (String × List String)) (key f : String),
      (∀ g ∈ gs, ∀ x ∈ g.2, P x) → P f →
      ∀ g ∈ addFile gs key f, ∀ x ∈ g.2, P x := by
  intro gs
  induction gs with
  | nil =>
    intro key f _ hf g hg x hx
    simp only [addFile, List.mem_singleton] at hg
    subst hg
    simp only [List.mem_singleton] at hx
    subst hx
    exact hf
  | cons kf rest ih =>
    obtain ⟨k, fl⟩ := kf
    intro key f hgs hf g hg x hx
    by_cases hk : k = key
    · rw [addFile, if_pos hk] at hg
      rcases List.mem_cons.mp hg with rfl | hg2
      · rcases List.mem_append.mp hx with hx1 | hx2
        · exact hgs (k, fl) (List.mem_cons_self _ _) x hx1
        · simp only [List.mem_singleton] at hx2
          subst hx2
          exact hf
      · exact hgs g (List.mem_cons_of_mem _ hg2) x hx
    · rw [addFile, if_neg hk] at hg
      rcases List.mem_cons.mp hg with rfl | hg2
      · exact hgs (k, fl) (List.mem_cons_self _ _) x hx
      · exact ih key f (fun g2 hg2b => hgs g2 (List.mem_cons_of_mem _ hg2b)) hf g hg2 x hx

theorem addFile_keys :
    ∀ (gs : List (String × List String)) (key f : String) (g : String × List String),
      g ∈ addFile gs key f → g.1 = key ∨ g.1 ∈ gs.map Prod.fst := by
  intro gs
  induction gs with
  | nil =>
    intro key f g hg
    simp only [addFile, List.mem_singleton] at hg
    subst hg
    exact Or.inl rfl
  | cons kf rest ih =>
    obtain ⟨k, fl⟩ := kf
    intro key f g hg
    by_cases hk : k = key
    · rw [addFile, if_pos hk] at hg
      rcases List.mem_cons.mp hg with rfl | hg2
      · exact Or.inl hk
      · exact Or.inr (List.mem_map_of_mem Prod.fst (List.mem_cons_of_mem _ hg2))
    · rw [addFile, if_neg hk] at hg
      rcases List.mem_cons.mp hg with rfl | hg2
      · exact Or.inr (by simp)
      · rcases ih key f g hg2 with h1 | h2
        · exact Or.inl h1
        · exact Or.inr (by simpa using Or.inr (List.mem_map.mp h2))

theorem innerFold_forall (cfg : ListFilesCfg) (rel : String) :
    ∀ (files : List String) (gs : List (String × List String)),
      (∀ g ∈ gs, ∀ x ∈ g.2, ignoredExtHit cfg x = false) →
      ∀ g ∈ files.foldl (addMatching cfg rel) gs, ∀ x ∈ g.2,
        ignoredExtHit cfg x = false := by
  intro files
  induction files with
  | nil => intro gs hgs; simpa using hgs
  | cons fn fs ih =>
    intro gs hgs
    rw [List.foldl_cons]
    apply ih
    by_cases hb : ignoredExtHit cfg fn = true
    · rw [addMatching, if_pos hb]; exact hgs
    · rw [addMatching, if_neg hb]
      exact addFile_forall gs rel fn hgs (by simpa using hb)

theorem innerFold_keys (cfg : ListFilesCfg) (rel : String) :
    ∀ (files : List String) (gs : List (String × List String))
      (g : String × List String),
      g ∈ files.foldl (addMatching cfg rel) gs →
      g.1 = rel ∨ g.1 ∈ gs.map Prod.fst := by
  intro files
  induction files with
  | nil =>
    intro gs g hg
    simp only [List.foldl_nil] at hg
    exact Or.inr (List.mem_map_of_mem Prod.fst hg)
  | cons fn fs ih =>
    intro gs g hg
    rw [List.foldl_cons] at hg
    rcases ih (addMatching cfg rel gs fn) g hg with h1 | h2
    · exact Or.inl h1
    · by_cases hb : ignoredExtHit cfg fn = true
      · rw [addMatching, if_pos hb] at h2
        exact Or.inr h2
      · rw [addMatching, if_neg hb] at h2
        obtain ⟨g2, hg2, he⟩ := List.mem_map.mp h2
        rcases addFile_keys gs rel fn g2 hg2 with h3 | h4
        · exact Or.inl (he ▸ h3)
        · exact Or.inr (he ▸ h4)

theorem collectGroups_ext (cfg : ListFilesCfg) (d : String) :
    ∀ (walked : List (String × List String)) (gs : List (String × List String)),
      (∀ g ∈ gs, ∀ x ∈ g.2, ignoredExtHit cfg x = false) →
      ∀ g ∈ walked.foldl (walkStep cfg d) gs, ∀ x ∈ g.2,
        ignoredExtHit cfg x = false := by
  intro walked
  induction walked with
  | nil => intro gs hgs; simpa using hgs
  | cons rf rest ih =>
    intro gs hgs
    rw [List.foldl_cons]
    apply ih
    by_cases hdir : ignoredDirHit cfg rf.1 = true
    · rw [walkStep, if_pos hdir]; exact hgs
    · rw [walkStep, if_neg hdir]
      exact innerFold_forall cfg (relDirName d rf.1) rf.2 gs hgs

theorem collectGroups_keys (cfg : ListFilesCfg) (d : String) :
    ∀ (walked : List (String × List String)) (gs : List (String × List String))
      (g : String × List String),
      g ∈ walked.foldl (walkStep cfg d) gs →
      (∃ rf ∈ walked, ignoredDirHit cfg rf.1 = false ∧ g.1 = relDirName d rf.1) ∨
        g.1 ∈ gs.map Prod.fst := by
  intro walked
  induction walked with
  | nil =>
    intro gs g hg
    simp only [List.foldl_nil] at hg
    exact Or.inr (List.mem_map_of_mem Prod.fst hg)
  | cons rf rest ih =>
    intro gs g hg
    rw [List.foldl_cons] at hg
    rcases ih (walkStep cfg d gs rf) g hg with ⟨rf2, h1, h2, h3⟩ | hx
    · exact Or.inl ⟨rf2, List.mem_cons_of_mem _ h1, h2, h3⟩
    · by_cases hdir : ignoredDirHit cfg rf.1 = true
      · rw [walkStep, if_pos hdir] at hx
        exact Or.inr hx
      · rw [walkStep, if_neg hdir] at hx
        obtain ⟨g2, hg2, he⟩ := List.mem_map.mp hx
        rcases innerFold_keys cfg (relDirName d rf.1) rf.2 gs g2 hg2 with h3 | h4
        · exact Or.inl ⟨rf, List.mem_cons_self _ _, by simpa using hdir, he ▸ h3⟩
        · exact Or.inr (he ▸ h4)

theorem renderEntries_fst (groups : List (String × List String)) :
    (renderEntries groups).map Prod.fst =
      (groups.map Prod.fst).mergeSort (fun a b => decide (a ≤ b)) := by
  simp only [renderEntries, List.map_map]
  have h : (Prod.fst ∘ fun k : String =>
      (k, ((groups.lookup k).getD []).mergeSort (fun a b => decide (a ≤ b)))) = id := rfl
  rw [h, List.map_id]

end AiDocGen

open AiDocGen in
/-- Claim C9 (counterexample): `ListFilesTool._run` can hard-crash.  On the
empty directory string, its very first use of the argument —
`directory[-1]` — raises an unhandled `IndexError` instead of any
recoverable signal. -/
theorem list_files_empty_dir_index_error :
    ListFilesTool.run [] ⟨DEFAULT_IGNORED_DIRS, DEFAULT_IGNORED_EXTENSIONS⟩ "" =
      .error .indexError := by decide

open AiDocGen in
/-- Claim C9 (amended): for every non-empty directory string,
`ListFilesTool._run` never raises: an inaccessible or nonexistent directory
walks to nothing and yields the no-files message as a normal return, and
otherwise the result is the rendered grouping by relative subdirectory in
which the directory keys are sorted, each directory's file list is sorted,
every grouped file survives the ignored-extension filter, and every group
key stems from a walk entry that survives the ignored-directory filter;
the empty directory string instead raises an unhandled `IndexError`. -/
theorem list_files_run_spec (fsd : List (String × DirTree)) (cfg : ListFilesCfg)
    (directory : String) (h : directory ≠ "") :
    (ListFilesTool.run fsd cfg directory =
      .ok (if (collectGroups cfg (stripDir directory)
            (walkedOf fsd (stripDir directory))).isEmpty
        then "No files found in " ++ stripDir directory ++ "."
        else renderGroups (stripDir directory)
          (collectGroups cfg (stripDir directory)
            (walkedOf fsd (stripDir directory))))) ∧
    List.Sorted (fun a b => a ≤ b)
      ((renderEntries (collectGroups cfg (stripDir directory)
        (walkedOf fsd (stripDir directory)))).map Prod.fst) ∧
    (∀ e ∈ renderEntries (collectGroups cfg (stripDir directory)
        (walkedOf fsd (stripDir directory))),
      List.Sorted (fun a b => a ≤ b) e.2) ∧
    (∀ g ∈ collectGroups cfg (stripDir directory)
        (walkedOf fsd (stripDir directory)),
      ∀ x ∈ g.2, ignoredExtHit cfg x = false) ∧
    (∀ g ∈ collectGroups cfg (stripDir directory)
        (walkedOf fsd (stripDir directory)),
      ∃ rf ∈ walkedOf fsd (stripDir directory),
        ignoredDirHit cfg rf.1 = false ∧
          g.1 = relDirName (stripDir directory) rf.1) := by
  have hdata : directory.data ≠ [] := fun hd => h (String.ext (hd.trans rfl))
  refine ⟨?_, ?_, ?_, ?_, ?_⟩
  · obtain ⟨last, hlast⟩ :=
      Option.ne_none_iff_exists'.mp
        (fun hn => hdata (List.getLast?_eq_none_iff.mp hn))
    by_cases hemp : (collectGroups cfg (stripDir directory)
        (walkedOf fsd (stripDir directory))).isEmpty = true
    · simp [ListFilesTool.run, hlast, hemp]
    · simp [ListFilesTool.run, hlast, hemp]
  · rw [renderEntries_fst]
    exact List.sorted_mergeSort' _
  · intro e he
    obtain ⟨k, _, rfl⟩ := List.mem_map.mp he
    exact List.sorted_mergeSort' _
  · intro g hg
    exact collectGroups_ext cfg (stripDir directory)
      (walkedOf fsd (stripDir directory)) [] (by simp) g hg
  · intro g hg
    rcases collectGroups_keys cfg (stripDir directory)
        (walkedOf fsd (stripDir directory)) [] g hg with hL | hR
    · exact hL
    · simp at hR

open AiDocGen in
/-- Witness for `list_files_run_spec` at a concrete one-directory filesystem
holding two files. -/
theorem list_files_run_spec_witness :
    ("src" : String) ≠ "" ∧
    ((ListFilesTool.run [("src", DirTree.node ["b.txt", "a.txt"] [])]
        ⟨["bin"], [".log"]⟩ "src" =
      .ok (if (collectGroups ⟨["bin"], [".log"]⟩ (stripDir "src")
            (walkedOf [("src", DirTree.node ["b.txt", "a.txt"] [])] (stripDir "src"))).isEmpty
        then "No files found in " ++ stripDir "src" ++ "."
        else renderGroups (stripDir "src")
          (collectGroups ⟨["bin"], [".log"]⟩ (stripDir "src")
            (walkedOf [("src", DirTree.node ["b.txt", "a.txt"] [])] (stripDir "src"))))) ∧
    List.Sorted (fun a b => a ≤ b)
      ((renderEntries (collectGroups ⟨["bin"], [".log"]⟩ (stripDir "src")
        (walkedOf [("src", DirTree.node ["b.txt", "a.txt"] [])] (stripDir "src")))).map Prod.fst) ∧
    (∀ e ∈ renderEntries (collectGroups ⟨["bin"], [".log"]⟩ (stripDir "src")
        (walkedOf [("src", DirTree.node ["b.txt", "a.txt"] [])] (stripDir "src"))),
      List.Sorted (fun a b => a ≤ b) e.2) ∧
    (∀ g ∈ collectGroups ⟨["bin"], [".log"]⟩ (stripDir "src")
        (walkedOf [("src", DirTree.node ["b.txt", "a.txt"] [])] (stripDir "src")),
      ∀ x ∈ g.2, ignoredExtHit ⟨["bin"], [".log"]⟩ x = false) ∧
    (∀ g ∈ collectGroups ⟨["bin"], [".log"]⟩ (stripDir "src")
        (walkedOf [("src", DirTree.node ["b.txt", "a.txt"] [])] (stripDir "src")),
      ∃ rf ∈ walkedOf [("src", DirTree.node ["b.txt", "a.txt"] [])] (stripDir "src"),
        ignoredDirHit ⟨["bin"], [".log"]⟩ rf.1 = false ∧
          g.1 = relDirName (stripDir "src") rf.1)) :=
  ⟨by decide,
    list_files_run_spec [("src", DirTree.node ["b.txt", "a.txt"] [])]
      ⟨["bin"], [".log"]⟩ "src" (by decide)⟩
